import Mathlib

/-
Verification of the accept path of taosocks (src/win/server_socket.h):
the AcceptIOContext operation context and the ServerSocket acceptor.
Machine integers are modelled as Nat/Int with explicit reductions modulo
powers of two where the C++ types are fixed-width.  Method bodies that
the repository keeps outside this header (GenId, OnAccept, _OnAccept)
are modelled from the spec, as marked on their doc comments.
-/

namespace Taosocks

/-- Size in bytes of the WinSock SOCKADDR_IN structure on the target
platform (a fixed 16-byte layout: family, port, 4-byte address, 8 bytes
of zero padding). -/
def sizeof_SOCKADDR_IN : Nat := 16

/-- Socket handles, modelled as natural numbers (the numeric value of the
WinSock SOCKET handle). -/
abbrev SOCKET := Nat

/-- The WinSock INVALID_SOCKET sentinel, the all-ones 64-bit handle value. -/
def INVALID_SOCKET : SOCKET := 2 ^ 64 - 1

/-- Modelled from the spec: the operation-kind tag of BaseIOContext
(declared in base_socket.h, which is not under src/); section 3 of the
spec gives the enum as Accept, Read, Write. -/
inductive OpType where
  | Accept
  | Read
  | Write
deriving DecidableEq, Repr

/-- The accept-specific operation context of server_socket.h, lines 17 to 56.
It carries the operation kind from its BaseIOContext part and the socket
handle fd created eagerly in the constructor.  The 64-byte address buffer
is left uninitialized by the constructor; only its declared size matters
here, see AcceptIOContext.bufSize. -/
structure AcceptIOContext where
  opType : OpType
  fd : SOCKET
deriving DecidableEq, Repr

/-- Declared size of the address buffer of AcceptIOContext, from the array
declaration at line 55: char buf[(sizeof(SOCKADDR_IN) + 16) * 2]. -/
def AcceptIOContext.bufSize : Nat := (sizeof_SOCKADDR_IN + 16) * 2

/-- Outcome of running the AcceptIOContext constructor (lines 19 to 24).
The constructor either completes and yields the constructed object, or
its assert fires, which aborts the program: there is no outcome in which
an allocation failure is returned to the caller as a value. -/
inductive CtorResult where
  | ok (ctx : AcceptIOContext)
  | assertionFailure
deriving DecidableEq, Repr

/-- The AcceptIOContext constructor, lines 19 to 24.  The result of the
WSASocket call is the parameter wsaSocketRet; the constructor stores it
into fd and then asserts fd != INVALID_SOCKET, so an INVALID_SOCKET
result aborts instead of being reported. -/
def mkAcceptIOContext (wsaSocketRet : SOCKET) : CtorResult :=
  let fd := wsaSocketRet
  if fd ≠ INVALID_SOCKET then
    CtorResult.ok { opType := OpType.Accept, fd := fd }
  else
    CtorResult.assertionFailure

/-- The argument record of one AcceptEx submission: the observable
parameters that AcceptIOContext.Accept (lines 26 to 40) passes to
WSA::AcceptEx. -/
structure AcceptExCall where
  sListenSocket : SOCKET
  sAcceptSocket : SOCKET
  dwReceiveDataLength : Nat
  dwLocalAddressLength : Nat
  dwRemoteAddressLength : Nat
deriving DecidableEq, Repr

/-- AcceptIOContext.Accept, lines 26 to 40: one AcceptEx submission bound
to the pre-created socket fd of the context, with receive-data length 0 and
local and remote address slot lengths sizeof(SOCKADDR_IN) + 16 each.  The
model records the submitted call; the OS status word it returns is outside
the model. -/
def AcceptIOContext.Accept (ctx : AcceptIOContext) (listen : SOCKET) : AcceptExCall :=
  { sListenSocket := listen
    sAcceptSocket := ctx.fd
    dwReceiveDataLength := 0
    dwLocalAddressLength := sizeof_SOCKADDR_IN + 16
    dwRemoteAddressLength := sizeof_SOCKADDR_IN + 16 }

/-- The raw bytes of one SOCKADDR_IN value. -/
abbrev AddrBytes := List UInt8

/-- Modelled external WinSock contract: the output-buffer layout produced
by a completed AcceptEx that was submitted with receive-data length 0 and
two address slots.  The first slot holds the local address bytes followed
by the padding of that slot; the second slot holds the remote address
bytes followed by its padding. -/
def acceptExFill (localA padL remoteA padR : AddrBytes) : List UInt8 :=
  (localA ++ padL) ++ (remoteA ++ padR)

/-- Modelled external WinSock contract: GetAcceptExSockAddrs called with
receive-data length r and local slot length l reads the local address at
offset r and the remote address at offset r + l, each sizeof(SOCKADDR_IN)
bytes; the remote slot length only bounds the second slot and moves
neither offset. -/
def getAcceptExSockAddrs (buf : List UInt8) (r l _m : Nat) : AddrBytes × AddrBytes :=
  ((buf.drop r).take sizeof_SOCKADDR_IN, (buf.drop (r + l)).take sizeof_SOCKADDR_IN)

/-- AcceptIOContext.GetAddresses, lines 42 to 52: parses the completed
buffer by calling GetAcceptExSockAddrs with the same receive-data length 0
and the same two slot lengths sizeof(SOCKADDR_IN) + 16 that Accept passed
at submission. -/
def AcceptIOContext.GetAddresses (buf : List UInt8) : AddrBytes × AddrBytes :=
  getAcceptExSockAddrs buf 0 (sizeof_SOCKADDR_IN + 16) (sizeof_SOCKADDR_IN + 16)

/-- Modulus of the 32-bit representation underlying the C++ int field
_next_id of ServerSocket (line 85). -/
def INT_MOD : Nat := 2 ^ 32

/-- Signed reading of a 32-bit two-complement representation r < 2^32:
the value of the C++ int whose bit pattern is r. -/
def int32ofRepr (r : Nat) : Int :=
  if r < 2 ^ 31 then (r : Int) else (r : Int) - 2 ^ 32

/-- Modelled from the spec: the body of ServerSocket::GenId is not under
src/ (only its declaration at line 74 and the field int _next_id at line 85
are).  Per spec sections 3 and 4.3 the counter starts at 0 and each call
returns a fresh id and advances the counter, so GenId returns the current
value of _next_id and increments it; the field being a C++ int, the
increment wraps modulo 2^32 on the representation.  The argument and the
second component are the representation of _next_id before and after the
call, the first component the returned id. -/
def GenId (next_id : Nat) : Int × Nat :=
  (int32ofRepr next_id, (next_id + 1) % INT_MOD)

/-- Representation of _next_id after n calls to GenId, starting from the
0 installed by the ServerSocket constructor (line 67). -/
def nextIdAfter : Nat → Nat
  | 0 => 0
  | n + 1 => (GenId (nextIdAfter n)).2

/-- The id returned by the (n+1)-th call to GenId over the lifetime of a
ServerSocket, counting from n = 0. -/
def idAt (n : Nat) : Int := (GenId (nextIdAfter n)).1

/-- Serialization order of two GenId calls racing on two
completion-dispatch threads A and B. -/
inductive Interleaving where
  | AB
  | BA
deriving DecidableEq, Repr

/-- Modelled from the spec: two completion-dispatch threads each call
GenId once; per spec section 5 the shared counter is updated with atomic
or mutually-exclusive access, so each call reads and advances the counter
in one indivisible step and an execution is one of the two serialization
orders.  The result pairs the ids returned to A and to B with the final
counter representation. -/
def concurrentGenId (next_id : Nat) : Interleaving → (Int × Int) × Nat
  | Interleaving.AB =>
      let a := GenId next_id
      let b := GenId a.2
      ((a.1, b.1), b.2)
  | Interleaving.BA =>
      let b := GenId next_id
      let a := GenId b.2
      ((a.1, b.1), b.2)

/-- The single hand-off callback slot _onAccepted of ServerSocket
(line 62), with handler values drawn from an arbitrary type standing for
std::function values; none stands for the default-constructed empty
function present before any registration. -/
structure ServerSocketCallbacks (α : Type) where
  onAccepted : Option α

/-- Modelled from the spec: the body of ServerSocket::OnAccept is not
under src/ (only its declaration at line 76 and the slot at line 62 are);
per the spec, registering installs the single consumer of accepted
connections, replacing any prior registration. -/
def ServerSocketCallbacks.OnAccept {α : Type} (s : ServerSocketCallbacks α) (h : α) :
    ServerSocketCallbacks α :=
  { s with onAccepted := some h }

/-- A sequence of OnAccept registrations applied in order. -/
def registerAll {α : Type} (s : ServerSocketCallbacks α) (hs : List α) :
    ServerSocketCallbacks α :=
  hs.foldl ServerSocketCallbacks.OnAccept s

/-- One observable step of the success path of accept-completion
handling in the acceptor. -/
inductive AcceptStep where
  | resolveAddrs
  | newClient
  | submitReplacement
  | invokeCallback
deriving DecidableEq, Repr

/-- Modelled from the spec: the body of the accept-completion handler
ServerSocket::_OnAccept is not under src/ (only its declaration at line 78
is); per spec section 4.3, on a successful completion the acceptor
resolves the addresses from the context, constructs the Connection with a
fresh id, submits a replacement AcceptContext, and then invokes the
registered callback. -/
def onAcceptTrace : List AcceptStep :=
  [AcceptStep.resolveAddrs, AcceptStep.newClient,
   AcceptStep.submitReplacement, AcceptStep.invokeCallback]

/-- Modelled from the spec: ServerSocket::_OnAccept as a step on the
counter state, returning the updated counter representation (the fresh id
consumed for the new Connection) and the ordered trace of its observable
steps. -/
def ServerSocket_OnAccept (next_id : Nat) : Nat × List AcceptStep :=
  ((GenId next_id).2, onAcceptTrace)

/-- Closed form of the counter representation: after n calls it is
n mod 2^32. -/
theorem nextIdAfter_closed (n : Nat) : nextIdAfter n = n % INT_MOD := by
  induction n with
  | zero => rfl
  | succ k ih =>
      show (GenId (nextIdAfter k)).2 = (k + 1) % INT_MOD
      rw [ih]
      show (k % INT_MOD + 1) % INT_MOD = (k + 1) % INT_MOD
      simp [INT_MOD, Nat.add_mod]

/-- Signed reading of a small representation is the value itself. -/
theorem int32ofRepr_small {r : Nat} (h : r < 2 ^ 31) : int32ofRepr r = (r : Int) := by
  unfold int32ofRepr
  rw [if_pos h]

/-- While fewer than 2^31 ids have been issued, the id of call n is n. -/
theorem idAt_small {n : Nat} (h : n < 2 ^ 31) : idAt n = (n : Int) := by
  have hm : n % INT_MOD = n := Nat.mod_eq_of_lt (by
    have : (2 : Nat) ^ 31 < 2 ^ 32 := by norm_num
    simp [INT_MOD]; omega)
  show (GenId (nextIdAfter n)).1 = (n : Int)
  rw [nextIdAfter_closed, hm]
  exact int32ofRepr_small h

end Taosocks

namespace Taosocks

/-- The id of call n is the signed reading of n mod 2^32. -/
theorem idAt_repr (n : Nat) : idAt n = int32ofRepr (n % INT_MOD) := by
  show (GenId (nextIdAfter n)).1 = _
  rw [nextIdAfter_closed]
  rfl

/-- The id returned by call number 2^31 is the wrapped value, negative
2^31. -/
theorem idAt_two_pow_31 : idAt (2 ^ 31) = -(2 ^ 31) := by
  rw [idAt_repr]
  have hm : 2 ^ 31 % INT_MOD = 2 ^ 31 := Nat.mod_eq_of_lt (by norm_num [INT_MOD])
  rw [hm]
  unfold int32ofRepr
  rw [if_neg (by norm_num)]
  norm_num

/-- The id returned by call number 2^32 is 0 again. -/
theorem idAt_two_pow_32 : idAt (2 ^ 32) = 0 := by
  rw [idAt_repr]
  have hm : 2 ^ 32 % INT_MOD = 0 := by norm_num [INT_MOD]
  rw [hm]
  unfold int32ofRepr
  rw [if_pos (by norm_num)]
  norm_num

/-- C5: the Accept method submits one accept bound to the pre-created
socket of the context, receive-data length 0, and both address slot
lengths equal to sizeof(SOCKADDR_IN) + 16. -/
theorem accept_submits_single_bound_accept (ctx : AcceptIOContext) (listen : SOCKET) :
    (ctx.Accept listen).sListenSocket = listen ∧
    (ctx.Accept listen).sAcceptSocket = ctx.fd ∧
    (ctx.Accept listen).dwReceiveDataLength = 0 ∧
    (ctx.Accept listen).dwLocalAddressLength = sizeof_SOCKADDR_IN + 16 ∧
    (ctx.Accept listen).dwRemoteAddressLength = sizeof_SOCKADDR_IN + 16 :=
  ⟨rfl, rfl, rfl, rfl, rfl⟩

/-- C7: the address buffer of AcceptIOContext is declared with size
(sizeof(SOCKADDR_IN) + 16) * 2, that is, two address slots of
sizeof(SOCKADDR_IN) + 16 bytes each, 64 bytes in total. -/
theorem bufSize_two_padded_addresses :
    AcceptIOContext.bufSize = 2 * (sizeof_SOCKADDR_IN + 16) ∧
    AcceptIOContext.bufSize = 64 := by
  constructor <;> decide

/-- C9: whenever the AcceptIOContext constructor completes without its
assertion firing, the stored socket handle fd is valid; the allocation
error branch is cut off by the assertion, never by a returned error. -/
theorem ctor_ok_implies_valid_fd (r : SOCKET) (ctx : AcceptIOContext)
    (h : mkAcceptIOContext r = CtorResult.ok ctx) : ctx.fd ≠ INVALID_SOCKET := by
  unfold mkAcceptIOContext at h
  by_cases hr : r ≠ INVALID_SOCKET
  · simp [hr] at h
    rw [← h]
    exact hr
  · simp [hr] at h

/-- Witness for C9: the constructor run with socket handle 5 completes,
and the fd of the resulting context is valid. -/
theorem ctor_ok_implies_valid_fd_witness :
    mkAcceptIOContext 5 = CtorResult.ok { opType := OpType.Accept, fd := 5 } ∧
    ({ opType := OpType.Accept, fd := 5 } : AcceptIOContext).fd ≠ INVALID_SOCKET :=
  ⟨by decide, ctor_ok_implies_valid_fd 5 _ (by decide)⟩

/-- C1 counterexample: when the socket allocation fails (WSASocket yields
INVALID_SOCKET), the constructor does not complete with a reported,
recoverable error value; its assertion fires, aborting the program. -/
theorem ctor_alloc_failure_aborts :
    mkAcceptIOContext INVALID_SOCKET = CtorResult.assertionFailure := by
  decide

/-- C1 amended: allocation failure in the AcceptIOContext constructor is
cut off by an assertion that aborts the program; it is reported to the
Acceptor as a recoverable error in no case, and the assertion fires
exactly when the allocation failed. -/
theorem ctor_alloc_failure_iff_assert (r : SOCKET) :
    mkAcceptIOContext r = CtorResult.assertionFailure ↔ r = INVALID_SOCKET := by
  unfold mkAcceptIOContext
  by_cases hr : r ≠ INVALID_SOCKET
  · simp [hr]
  · simp [hr]
    simp at hr
    exact hr

/-- C2 counterexample: at call number 2^31 the id returned by GenId is not
greater than the id of the preceding call (the counter wraps to the
negative range), and the id of call number 2^32 equals the id of call 0
(ids are reused), so over an unbounded lifetime the ids are not strictly
increasing. -/
theorem genid_unbounded_monotonicity_fails :
    ¬ idAt (2 ^ 31 - 1) < idAt (2 ^ 31) ∧ idAt (2 ^ 32) = idAt 0 := by
  have e1 : idAt (2 ^ 31 - 1) = ((2 ^ 31 - 1 : Nat) : Int) := idAt_small (by norm_num)
  have e0 : idAt 0 = ((0 : Nat) : Int) := idAt_small (by norm_num)
  refine ⟨?_, ?_⟩
  · rw [e1, idAt_two_pow_31]
    norm_num
  · rw [idAt_two_pow_32, e0]
    norm_num

/-- C2 amended: the counter starts at 0 and, as long as fewer than 2^31
ids have been issued, each id returned by GenId is strictly greater than
every previously returned id; the guarantee is bounded by the width of the
int counter. -/
theorem genid_strictly_increasing_below_wrap :
    idAt 0 = 0 ∧ ∀ m n : Nat, m < n → n < 2 ^ 31 → idAt m < idAt n := by
  refine ⟨by simpa using idAt_small (show (0 : Nat) < 2 ^ 31 by norm_num), ?_⟩
  intro m n hmn hn
  rw [idAt_small (lt_trans hmn hn), idAt_small hn]
  exact_mod_cast hmn

/-- Witness for the amended C2: calls 1 and 2 are below the bound and
call 2 returns a strictly greater id than call 1. -/
theorem genid_strictly_increasing_below_wrap_witness :
    (1 < 2 ∧ 2 < 2 ^ 31) ∧ idAt 1 < idAt 2 :=
  ⟨⟨by norm_num, by norm_num⟩,
   genid_strictly_increasing_below_wrap.2 1 2 (by norm_num) (by norm_num)⟩

/-- C10: since _next_id is a 32-bit signed int, the strict-increase and
never-reused guarantee of GenId holds while the number of issued ids stays
below INT_MAX; at call number 2^31 the counter has wrapped into the
negative range and the id decreases, and at call number 2^32 the id of
call 0 is returned again. -/
theorem genid_overflow_wraps_and_repeats :
    (∀ m n : Nat, m < n → n < 2 ^ 31 - 1 → idAt m < idAt n) ∧
    idAt (2 ^ 31) < idAt (2 ^ 31 - 1) ∧
    idAt (2 ^ 32) = idAt 0 := by
  refine ⟨?_, ?_, ?_⟩
  · intro m n hmn hn
    have hn31 : n < 2 ^ 31 := by omega
    rw [idAt_small (lt_trans hmn hn31), idAt_small hn31]
    exact_mod_cast hmn
  · rw [idAt_two_pow_31, idAt_small (show 2 ^ 31 - 1 < 2 ^ 31 by norm_num)]
    norm_num
  · rw [idAt_two_pow_32, idAt_small (show (0 : Nat) < 2 ^ 31 by norm_num)]
    norm_num

/-- Witness for C10: calls 0 and 1 are below INT_MAX and the id of call 1
is strictly greater than the id of call 0. -/
theorem genid_overflow_wraps_and_repeats_witness :
    (0 < 1 ∧ 1 < 2 ^ 31 - 1) ∧ idAt 0 < idAt 1 :=
  ⟨⟨by norm_num, by norm_num⟩,
   genid_overflow_wraps_and_repeats.1 0 1 (by norm_num) (by norm_num)⟩

/-- C4 counterexample: without a bound on the number of previously issued
ids, a racing GenId call can return an id that is not strictly greater
than all previously returned ids: after 2^31 - 1 earlier calls the id
handed to the second thread wraps to the negative range, below the id of
call 0, and after 2^32 - 1 earlier calls the second thread receives the
id of call 0 again, so the returned ids are not even fresh. -/
theorem concurrent_genid_unbounded_fails :
    (concurrentGenId (nextIdAfter (2 ^ 31 - 1)) Interleaving.AB).1.2 < idAt 0 ∧
    (concurrentGenId (nextIdAfter (2 ^ 32 - 1)) Interleaving.AB).1.2 = idAt 0 := by
  have e0 : idAt 0 = 0 := by
    simpa using idAt_small (show (0 : Nat) < 2 ^ 31 by norm_num)
  have h1 : nextIdAfter (2 ^ 31 - 1) = 2 ^ 31 - 1 := by
    rw [nextIdAfter_closed]
    exact Nat.mod_eq_of_lt (by norm_num [INT_MOD])
  have h2 : nextIdAfter (2 ^ 32 - 1) = 2 ^ 32 - 1 := by
    rw [nextIdAfter_closed]
    exact Nat.mod_eq_of_lt (by norm_num [INT_MOD])
  constructor
  · rw [h1]
    simp only [concurrentGenId, GenId]
    have hm : (2 ^ 31 - 1 + 1) % INT_MOD = 2 ^ 31 := by norm_num [INT_MOD]
    rw [hm, e0]
    unfold int32ofRepr
    rw [if_neg (by norm_num)]
    norm_num
  · rw [h2]
    simp only [concurrentGenId, GenId]
    have hm : (2 ^ 32 - 1 + 1) % INT_MOD = 0 := by norm_num [INT_MOD]
    rw [hm, e0]
    unfold int32ofRepr
    rw [if_pos (by norm_num)]
    norm_num

/-- C4 amended: two GenId calls racing on two completion-dispatch threads
execute in one of the two serialization orders (the counter update being
atomic per the spec); after n earlier calls with the counter still below
its wrap point, the two calls return distinct ids in either order, and
each returned id is strictly greater than every previously returned id.
Past 2^31 issued ids the int counter wraps and the guarantee fails, as in
the sequential case. -/
theorem concurrent_genid_fresh_and_distinct (o : Interleaving) (n m : Nat)
    (hm : m < n) (hn : n + 1 < 2 ^ 31) :
    (concurrentGenId (nextIdAfter n) o).1.1 ≠ (concurrentGenId (nextIdAfter n) o).1.2 ∧
    idAt m < (concurrentGenId (nextIdAfter n) o).1.1 ∧
    idAt m < (concurrentGenId (nextIdAfter n) o).1.2 := by
  have hn31 : n < 2 ^ 31 := by omega
  have hrep : nextIdAfter n = n := by
    rw [nextIdAfter_closed]
    exact Nat.mod_eq_of_lt (by norm_num [INT_MOD] at hn31 ⊢; omega)
  have hsucc : (n + 1) % INT_MOD = n + 1 :=
    Nat.mod_eq_of_lt (by norm_num [INT_MOD] at hn ⊢; omega)
  have hmlt : idAt m = (m : Int) := idAt_small (lt_trans hm hn31)
  cases o with
  | AB =>
      simp only [concurrentGenId, GenId, hrep, hsucc]
      rw [int32ofRepr_small hn31, int32ofRepr_small hn]
      refine ⟨by exact_mod_cast Nat.ne_of_lt (Nat.lt_succ_self n), ?_, ?_⟩
      · rw [hmlt]; exact_mod_cast hm
      · rw [hmlt]; exact_mod_cast lt_trans hm (Nat.lt_succ_self n)
  | BA =>
      simp only [concurrentGenId, GenId, hrep, hsucc]
      rw [int32ofRepr_small hn31, int32ofRepr_small hn]
      refine ⟨by exact_mod_cast Nat.ne_of_gt (Nat.lt_succ_self n), ?_, ?_⟩
      · rw [hmlt]; exact_mod_cast lt_trans hm (Nat.lt_succ_self n)
      · rw [hmlt]; exact_mod_cast hm

/-- Witness for C4: after one earlier call, the AB serialization of two
racing GenId calls returns distinct ids, both greater than the id of
call 0. -/
theorem concurrent_genid_fresh_and_distinct_witness :
    (0 < 1 ∧ 1 + 1 < 2 ^ 31) ∧
    ((concurrentGenId (nextIdAfter 1) Interleaving.AB).1.1 ≠
       (concurrentGenId (nextIdAfter 1) Interleaving.AB).1.2 ∧
     idAt 0 < (concurrentGenId (nextIdAfter 1) Interleaving.AB).1.1 ∧
     idAt 0 < (concurrentGenId (nextIdAfter 1) Interleaving.AB).1.2) :=
  ⟨⟨by norm_num, by norm_num⟩,
   concurrent_genid_fresh_and_distinct Interleaving.AB 1 0 (by norm_num) (by norm_num)⟩

/-- C8: the acceptor holds one callback slot and registration is
last-wins: after any sequence of OnAccept calls ending with handler h, the
installed handler is h. -/
theorem onaccept_last_registration_wins {α : Type} (s : ServerSocketCallbacks α)
    (hs : List α) (h : α) :
    (registerAll s (hs ++ [h])).onAccepted = some h := by
  unfold registerAll
  rw [List.foldl_append]
  rfl

/-- C3: on every successful accept completion the handler submits the
replacement AcceptContext strictly before it invokes the registered
callback, and each of the two steps occurs exactly once in the trace. -/
theorem replacement_submitted_before_callback (s : Nat) :
    (ServerSocket_OnAccept s).2.indexOf AcceptStep.submitReplacement <
      (ServerSocket_OnAccept s).2.indexOf AcceptStep.invokeCallback ∧
    (ServerSocket_OnAccept s).2.count AcceptStep.submitReplacement = 1 ∧
    (ServerSocket_OnAccept s).2.count AcceptStep.invokeCallback = 1 := by
  show onAcceptTrace.indexOf AcceptStep.submitReplacement <
      onAcceptTrace.indexOf AcceptStep.invokeCallback ∧
    onAcceptTrace.count AcceptStep.submitReplacement = 1 ∧
    onAcceptTrace.count AcceptStep.invokeCallback = 1
  decide

/-- C6: round-trip through the submission layout: a completed buffer whose
first slot of sizeof(SOCKADDR_IN) + 16 bytes starts with the local address
bytes and whose second slot starts with the remote address bytes is parsed
by GetAddresses into exactly those two addresses, byte for byte. -/
theorem getaddresses_roundtrip (localA padL remoteA padR : AddrBytes)
    (h1 : localA.length = sizeof_SOCKADDR_IN)
    (h2 : localA.length + padL.length = sizeof_SOCKADDR_IN + 16)
    (h3 : remoteA.length = sizeof_SOCKADDR_IN) :
    AcceptIOContext.GetAddresses (acceptExFill localA padL remoteA padR) =
      (localA, remoteA) := by
  unfold AcceptIOContext.GetAddresses getAcceptExSockAddrs acceptExFill
  have hlen : (localA ++ padL).length = 0 + (sizeof_SOCKADDR_IN + 16) := by
    rw [List.length_append, Nat.zero_add]
    exact h2
  refine Prod.ext ?_ ?_
  · show (((localA ++ padL) ++ (remoteA ++ padR)).drop 0).take sizeof_SOCKADDR_IN = localA
    rw [List.drop_zero, List.append_assoc]
    exact List.take_left' h1
  · show (((localA ++ padL) ++ (remoteA ++ padR)).drop
        (0 + (sizeof_SOCKADDR_IN + 16))).take sizeof_SOCKADDR_IN = remoteA
    rw [List.drop_left' hlen]
    exact List.take_left' h3

/-- Witness for C6: concrete 16-byte local and remote addresses placed in
the submission layout are recovered exactly by GetAddresses. -/
theorem getaddresses_roundtrip_witness :
    ((List.replicate 16 (10 : UInt8)).length = sizeof_SOCKADDR_IN ∧
     (List.replicate 16 (10 : UInt8)).length + (List.replicate 16 (0 : UInt8)).length =
       sizeof_SOCKADDR_IN + 16 ∧
     (List.replicate 16 (20 : UInt8)).length = sizeof_SOCKADDR_IN) ∧
    AcceptIOContext.GetAddresses
        (acceptExFill (List.replicate 16 (10 : UInt8)) (List.replicate 16 (0 : UInt8))
          (List.replicate 16 (20 : UInt8)) (List.replicate 16 (0 : UInt8))) =
      (List.replicate 16 (10 : UInt8), List.replicate 16 (20 : UInt8)) :=
  ⟨⟨by decide, by decide, by decide⟩,
   getaddresses_roundtrip (List.replicate 16 (10 : UInt8)) (List.replicate 16 (0 : UInt8))
     (List.replicate 16 (20 : UInt8)) (List.replicate 16 (0 : UInt8))
     (by decide) (by decide) (by decide)⟩

end Taosocks
